import Mathlib

/-!
Verification of the Automatic Prompt Optimization (APO) script
(`scripts/apo.ts` of the lead-scoring repository).

The script is embedded shallowly: pure computations are translated to Lean
functions over `ℚ` (JS numbers are IEEE doubles; every quantity the claims
talk about is exact decimal arithmetic, so `ℚ` is adequate, and the one place
where a float-only value appears -- `NaN` from `0/0` -- is modelled explicitly
with `JsNum`).  The two external effects, the LLM completion calls and the
checkpoint file, are modelled as explicit oracle functions and an
`Option String` file content.
-/

/- Batteries marks the `Rat` arithmetic operations irreducible, which blocks
`decide`/`rfl` evaluation of the executable model on concrete inputs; restore
the default reducibility (proof terms and axioms are unaffected). -/
set_option allowUnsafeReducibility true in
attribute [semireducible] Rat.add Rat.sub Rat.mul Rat.inv Rat.ofScientific

namespace APO

/-! ### A model of JS `JSON.parse`

`scoreLeadWithPrompt` calls `JSON.parse` on the trimmed completion text.
`Json` is the type of JavaScript values JSON.parse can return; the parser
below implements the strict JSON grammar (notably: no leading zeros, no
leading `+`, fractions and exponents need at least one digit) so that it
accepts exactly what `JSON.parse` accepts, with numbers kept exact in `ℚ`
instead of rounded to binary doubles.
-/

inductive Json where
  | null
  | bool (b : Bool)
  | num (q : ℚ)
  | str (s : String)
  | arr (elems : List Json)
  | obj (fields : List (String × Json))

def lbrace : Char := Char.ofNat 123
def rbrace : Char := Char.ofNat 125

def isJsonWs (c : Char) : Bool :=
  c == ' ' || c == '\t' || c == '\n' || c == '\r'

def skipWs : List Char → List Char
  | [] => []
  | c :: cs => if isJsonWs c then skipWs cs else c :: cs

def digitsToNat (ds : List Char) : ℕ :=
  ds.foldl (fun n c => 10 * n + (c.toNat - 48)) 0

/-- Ten to a natural power, as a rational. -/
def tenPow (n : ℕ) : ℚ := ((10 ^ n : ℕ) : ℚ)

/-- Fraction part of a JSON number: `.` followed by at least one digit;
anything else means the number ends before the dot. -/
def parseFrac (cs : List Char) : ℚ × List Char :=
  match cs with
  | '.' :: rest =>
    let ds := rest.takeWhile Char.isDigit
    if ds.isEmpty then (0, cs)
    else ((digitsToNat ds : ℚ) / tenPow ds.length, rest.dropWhile Char.isDigit)
  | _ => (0, cs)

/-- Exponent part of a JSON number, returned as the factor `10 ^ ±e`:
`e`/`E`, optional sign, at least one digit; anything else means the number
ends before the `e` and the factor is 1. -/
def parseExpPart (cs : List Char) : ℚ × List Char :=
  match cs with
  | [] => (1, [])
  | c :: rest =>
    if c = 'e' ∨ c = 'E' then
      let (neg, rest2) : Bool × List Char :=
        match rest with
        | '+' :: r => (false, r)
        | '-' :: r => (true, r)
        | _ => (false, rest)
      let ds := rest2.takeWhile Char.isDigit
      if ds.isEmpty then (1, cs)
      else (if neg then 1 / tenPow (digitsToNat ds) else tenPow (digitsToNat ds),
            rest2.dropWhile Char.isDigit)
    else (1, cs)

/-- Strict JSON number: `-? (0 | [1-9][0-9]*) frac? exp?`.  A leading zero
followed by more digits parses as just `0`, leaving the rest of the digits
behind, which then makes the enclosing parse fail -- the same observable
behaviour as the SyntaxError `JSON.parse` raises. -/
def parseNumber (cs : List Char) : Option (ℚ × List Char) :=
  let (neg, cs1) : Bool × List Char :=
    match cs with
    | '-' :: rest => (true, rest)
    | _ => (false, cs)
  match cs1 with
  | [] => none
  | c :: rest =>
    if c.isDigit then
      let (ip, rest1) : ℕ × List Char :=
        if c = '0' then (0, rest)
        else (digitsToNat ((c :: rest).takeWhile Char.isDigit),
              (c :: rest).dropWhile Char.isDigit)
      let (frac, rest2) := parseFrac rest1
      let (expFactor, rest3) := parseExpPart rest2
      let mag : ℚ := ((ip : ℚ) + frac) * expFactor
      some (if neg then -mag else mag, rest3)
    else none

def hexVal (c : Char) : Option ℕ :=
  if c.isDigit then some (c.toNat - 48)
  else if 'a' ≤ c ∧ c ≤ 'f' then some (c.toNat - 87)
  else if 'A' ≤ c ∧ c ≤ 'F' then some (c.toNat - 55)
  else none

/-- Body of a JSON string after the opening quote, with the standard escape
sequences.  Unescaped control characters are rejected, as in `JSON.parse`. -/
def parseStringBody (fuel : ℕ) (acc : List Char) (cs : List Char) :
    Option (String × List Char) :=
  match fuel with
  | 0 => none
  | fuel + 1 =>
    match cs with
    | [] => none
    | c :: rest =>
      if c = '"' then some (String.mk acc.reverse, rest)
      else if c = '\\' then
        match rest with
        | [] => none
        | e :: rest2 =>
          if e = '"' then parseStringBody fuel ('"' :: acc) rest2
          else if e = '\\' then parseStringBody fuel ('\\' :: acc) rest2
          else if e = '/' then parseStringBody fuel ('/' :: acc) rest2
          else if e = 'b' then parseStringBody fuel (Char.ofNat 8 :: acc) rest2
          else if e = 'f' then parseStringBody fuel (Char.ofNat 12 :: acc) rest2
          else if e = 'n' then parseStringBody fuel ('\n' :: acc) rest2
          else if e = 'r' then parseStringBody fuel ('\r' :: acc) rest2
          else if e = 't' then parseStringBody fuel ('\t' :: acc) rest2
          else if e = 'u' then
            match rest2 with
            | h1 :: h2 :: h3 :: h4 :: rest3 =>
              match hexVal h1, hexVal h2, hexVal h3, hexVal h4 with
              | some a, some b, some c2, some d =>
                parseStringBody fuel
                  (Char.ofNat (((a * 16 + b) * 16 + c2) * 16 + d) :: acc) rest3
              | _, _, _, _ => none
            | _ => none
          else none
      else if c.toNat < 32 then none
      else parseStringBody fuel (c :: acc) rest

mutual

/-- One JSON value starting at the head of `cs` (leading whitespace already
skipped), returning the value and the unconsumed rest. -/
def parseValue (fuel : ℕ) (cs : List Char) : Option (Json × List Char) :=
  match fuel with
  | 0 => none
  | fuel + 1 =>
    match cs with
    | [] => none
    | c :: rest =>
      if c = 'n' then
        match rest with
        | c1 :: c2 :: c3 :: rest2 =>
          if c1 = 'u' ∧ c2 = 'l' ∧ c3 = 'l' then some (Json.null, rest2) else none
        | _ => none
      else if c = 't' then
        match rest with
        | c1 :: c2 :: c3 :: rest2 =>
          if c1 = 'r' ∧ c2 = 'u' ∧ c3 = 'e' then some (Json.bool true, rest2) else none
        | _ => none
      else if c = 'f' then
        match rest with
        | c1 :: c2 :: c3 :: c4 :: rest2 =>
          if c1 = 'a' ∧ c2 = 'l' ∧ c3 = 's' ∧ c4 = 'e' then some (Json.bool false, rest2)
          else none
        | _ => none
      else if c = '"' then
        match parseStringBody (rest.length + 1) [] rest with
        | some (s, rest2) => some (Json.str s, rest2)
        | none => none
      else if c = lbrace then
        match skipWs rest with
        | c2 :: rest2 =>
          if c2 = rbrace then some (Json.obj [], rest2)
          else
            match parseFields fuel rest [] with
            | some (fields, rest3) => some (Json.obj fields, rest3)
            | none => none
        | [] => none
      else if c = '[' then
        match skipWs rest with
        | c2 :: rest2 =>
          if c2 = ']' then some (Json.arr [], rest2)
          else
            match parseElems fuel rest [] with
            | some (elems, rest3) => some (Json.arr elems, rest3)
            | none => none
        | [] => none
      else
        match parseNumber (c :: rest) with
        | some (q, rest2) => some (Json.num q, rest2)
        | none => none

/-- Comma-separated array elements followed by `]`. -/
def parseElems (fuel : ℕ) (cs : List Char) (acc : List Json) :
    Option (List Json × List Char) :=
  match fuel with
  | 0 => none
  | fuel + 1 =>
    match parseValue fuel (skipWs cs) with
    | none => none
    | some (v, rest) =>
      match skipWs rest with
      | ',' :: rest2 => parseElems fuel rest2 (v :: acc)
      | c :: rest2 => if c = ']' then some ((v :: acc).reverse, rest2) else none
      | [] => none

/-- Comma-separated `"key": value` members followed by the closing brace. -/
def parseFields (fuel : ℕ) (cs : List Char) (acc : List (String × Json)) :
    Option (List (String × Json) × List Char) :=
  match fuel with
  | 0 => none
  | fuel + 1 =>
    match skipWs cs with
    | q :: rest =>
      if q = '"' then
        match parseStringBody (rest.length + 1) [] rest with
        | some (key, rest2) =>
          match skipWs rest2 with
          | ':' :: rest3 =>
            match parseValue fuel (skipWs rest3) with
            | some (v, rest4) =>
              match skipWs rest4 with
              | ',' :: rest5 => parseFields fuel rest5 ((key, v) :: acc)
              | c :: rest5 =>
                if c = rbrace then some (((key, v) :: acc).reverse, rest5)
                else none
              | [] => none
            | none => none
          | _ => none
        | none => none
      else none
    | [] => none

end

/-- Model of `JSON.parse`: the whole (whitespace-padded) input must be a
single JSON value; everything else throws, modelled as `none`. -/
def jsonParse (s : String) : Option Json :=
  match parseValue (2 * s.data.length + 4) (skipWs s.data) with
  | some (j, rest) => if (skipWs rest).isEmpty then some j else none
  | none => none

/-- Property access `json.score` on an object: the last binding of a
duplicated key wins, as in `JSON.parse`.  Non-objects have no `score`
property (`null`, whose property access throws, is handled at the use
site). -/
def jsGetField (j : Json) (key : String) : Option Json :=
  match j with
  | Json.obj fields => ((fields.filter (fun kv => kv.1 = key)).getLast?).map (fun kv => kv.2)
  | _ => none

/-- The test `typeof json.score === "number"` of line 214: the numeric value
of the `score` field when there is one. -/
def jsScoreField (j : Json) : Option ℚ :=
  match jsGetField j "score" with
  | some (Json.num q) => some q
  | _ => none

/-! ### Lead scoring (`scoreLeadWithPrompt`, lines 195-231) -/

/-- Model of `String.prototype.trim`: strip whitespace from both ends.  (JS
trims a few more exotic Unicode whitespace characters; the common ones
suffice here.) -/
def jsTrim (s : String) : String :=
  String.mk (((s.data.dropWhile Char.isWhitespace).reverse.dropWhile
      Char.isWhitespace).reverse)

def ratOfDigits (intDs fracDs : List Char) : ℚ :=
  (digitsToNat intDs : ℚ) + (digitsToNat fracDs : ℚ) / tenPow fracDs.length

/-- Model of `text.match(/(\d+(?:\.\d+)?)/)` followed by `parseFloat`: the
leftmost maximal digit run, extended by `.` and a further digit run when one
directly follows; `none` when the text has no digit.  The value is kept
exact in `ℚ` (parseFloat rounds to a double; no claim depends on the
difference). -/
def firstNumber : List Char → Option ℚ
  | [] => none
  | c :: rest =>
    if c.isDigit then
      let intDs := (c :: rest).takeWhile Char.isDigit
      let after := (c :: rest).dropWhile Char.isDigit
      match after with
      | '.' :: ds =>
        let fracDs := ds.takeWhile Char.isDigit
        if fracDs.isEmpty then some (ratOfDigits intDs [])
        else some (ratOfDigits intDs fracDs)
      | _ => some (ratOfDigits intDs [])
    else firstNumber rest

/-- `Math.max` on two (non-NaN) numbers. -/
def jsMax (a b : ℚ) : ℚ := if a ≤ b then b else a

/-- `Math.min` on two (non-NaN) numbers. -/
def jsMin (a b : ℚ) : ℚ := if a ≤ b then a else b

/-- `Math.max(0, Math.min(10, x))` (lines 215 and 221). -/
def clampScore (q : ℚ) : ℚ := jsMax 0 (jsMin 10 q)

/-- Outcome of one `generateText` call: the completion text, or a thrown
error. -/
inductive GenOutcome where
  | err
  | ok (text : String)

/-- The regex fallback of lines 219-222 followed by the default of line 226:
first decimal number in the text clamped to [0, 10], else 5. -/
def numberFallback (text : String) : ℚ :=
  match firstNumber text.data with
  | some q => clampScore q
  | none => 5

/-- Parsing logic of `scoreLeadWithPrompt` (lines 203-230) applied to the
outcome of the `generateText` call.  A thrown call returns 5 (line 229).
Otherwise the trimmed text is JSON-parsed: a numeric `score` field is
clamped to [0, 10]; a parse failure falls back to the regex scan; a parsed
value without numeric `score` field falls through to the default 5 -- except
`null`, whose `json.score` property access throws inside the same `try` and
therefore also reaches the regex fallback (observably still 5: the only text
parsing to `null` has no digits). -/
def scoreResponseText (outcome : GenOutcome) : ℚ :=
  match outcome with
  | GenOutcome.err => 5
  | GenOutcome.ok raw =>
    let text := jsTrim raw
    match jsonParse text with
    | some Json.null => numberFallback text
    | some j =>
      match jsScoreField j with
      | some q => clampScore q
      | none => 5
    | none => numberFallback text

/-! ### Evaluation (`evaluatePrompt`, lines 237-281) -/

structure EvalLead where
  name : String
  title : String
  company : String
  linkedIn : String
  employeeRange : String
  expectedScore : ℚ
deriving DecidableEq, Inhabited

/-- `scoreLeadWithPrompt(prompt, lead)`: builds the full prompt (candidate
prompt followed by the lead context block) and runs one completion.  The
completion call is abstracted as an oracle `llm` indexed by the candidate
prompt and the lead, which together determine the full prompt text. -/
def scoreLeadWithPrompt (llm : String → EvalLead → GenOutcome)
    (prompt : String) (lead : EvalLead) : ℚ :=
  scoreResponseText (llm prompt lead)

structure Prediction where
  lead : EvalLead
  predicted : ℚ
  expected : ℚ
  error : ℚ
deriving DecidableEq, Inhabited

def CHUNK_SIZE : ℕ := 25

/-- Structural worker for `chunkList`; the fuel only serves termination and
never runs out when it starts at the list length (each step emits one chunk
of at least one element). -/
def chunkGo {α : Type} (size : ℕ) : ℕ → List α → List (List α)
  | _, [] => []
  | 0, _ => []
  | fuel + 1, x :: rest =>
    ((x :: rest).take size) :: chunkGo size fuel (rest.drop (size - 1))

/-- The `chunk` helper of lines 239-245. -/
def chunkList {α : Type} (size : ℕ) (xs : List α) : List (List α) :=
  chunkGo size xs.length xs

/-- `evalSet.slice(0, subsetSize)` (line 253): JS `slice` with a negative
end counts from the end of the array. -/
def jsSliceTo {α : Type} (xs : List α) (n : ℤ) : List α :=
  if n < 0 then xs.take (xs.length - n.natAbs) else xs.take n.toNat

/-- Line 253, `subsetSize ? evalSet.slice(0, subsetSize) : evalSet`: the
records an evaluation pass actually scores.  Note the JS truthiness test:
both `null` and `0` select the whole set. -/
def leadsFor (evalSet : List EvalLead) (subsetSize : Option ℤ) : List EvalLead :=
  match subsetSize with
  | some n => if n ≠ 0 then jsSliceTo evalSet n else evalSet
  | none => evalSet

/-- One record of the per-chunk `Promise.all` of lines 260-268. -/
def mkPrediction (llm : String → EvalLead → GenOutcome) (prompt : String)
    (lead : EvalLead) : Prediction :=
  let predicted := scoreLeadWithPrompt llm prompt lead
  { lead := lead, predicted := predicted, expected := lead.expectedScore,
    error := |predicted - lead.expectedScore| }

structure EvaluationResult where
  mae : ℚ
  accuracy : ℚ
  predictions : List Prediction
deriving DecidableEq, Inhabited

/-- `evaluatePrompt` (lines 247-281).  The chunked concurrent scoring is
order-preserving (chunks are processed in order and `Promise.all` keeps
positional order), so the predictions list ends up in evaluation-set order.
The divisions of lines 275/278 are taken in `ℚ`; their JS float behaviour on
an empty list is modelled by `maeJs`/`accuracyJs` below. -/
def evaluatePrompt (llm : String → EvalLead → GenOutcome) (prompt : String)
    (evalSet : List EvalLead) (subsetSize : Option ℤ) : EvaluationResult :=
  let leads := leadsFor evalSet subsetSize
  let predictions :=
    (chunkList CHUNK_SIZE leads).foldl
      (fun acc c => acc ++ c.map (mkPrediction llm prompt)) []
  let totalError := (predictions.map Prediction.error).sum
  let mae := totalError / (predictions.length : ℚ)
  let withinTolerance := (predictions.filter (fun p => p.error ≤ 1)).length
  let accuracy := (withinTolerance : ℚ) / (predictions.length : ℚ)
  { mae := mae, accuracy := accuracy, predictions := predictions }

/-- A JS `number` that may be `NaN`. -/
inductive JsNum where
  | nan
  | val (q : ℚ)
deriving DecidableEq

/-- Line 275 (`totalError / predictions.length`) with JS float semantics:
an empty predictions list makes the numerator 0 and the denominator 0, and
`0/0` is `NaN` (no exception is raised). -/
def maeJs (predictions : List Prediction) : JsNum :=
  if predictions.length = 0 then JsNum.nan
  else JsNum.val ((predictions.map Prediction.error).sum / (predictions.length : ℚ))

/-- Line 278 (`withinTolerance / predictions.length`) with JS float
semantics, as in `maeJs`. -/
def accuracyJs (predictions : List Prediction) : JsNum :=
  if predictions.length = 0 then JsNum.nan
  else JsNum.val
    (((predictions.filter (fun p => p.error ≤ 1)).length : ℚ) / (predictions.length : ℚ))

/-! ### The APO data model (lines 22-106) -/

structure PromptCandidate where
  prompt : String
  score : ℚ
  accuracy : ℚ
  iteration : ℕ
  predictions : Option (List Prediction)
deriving DecidableEq, Inhabited

structure APOConfig where
  maxIterations : ℕ
  candidatesPerIteration : ℕ
  beamWidth : ℕ
  earlyStopThreshold : ℚ
  evalSubsetSize : Option ℤ
deriving DecidableEq, Inhabited

/-- `DEFAULT_CONFIG` (lines 95-101); `0.05 = 1/20`. -/
def DEFAULT_CONFIG : APOConfig :=
  { maxIterations := 5, candidatesPerIteration := 2, beamWidth := 2,
    earlyStopThreshold := 1 / 20, evalSubsetSize := none }

structure IterCandidateSummary where
  score : ℚ
  accuracy : ℚ
  promptPreview : String
deriving DecidableEq, Inhabited

structure IterationSummary where
  iteration : ℕ
  candidates : List IterCandidateSummary
  bestScore : ℚ
  bestAccuracy : ℚ
deriving DecidableEq, Inhabited

structure APOReport where
  config : APOConfig
  baselineScore : ℚ
  baselineAccuracy : ℚ
  iterations : List IterationSummary
  finalBestPrompt : String
  finalBestScore : ℚ
  finalBestAccuracy : ℚ
  improvement : ℚ
  totalLLMCalls : ℕ
deriving DecidableEq, Inhabited

structure APOCheckpoint where
  config : APOConfig
  baselineScore : ℚ
  baselineAccuracy : ℚ
  beam : List PromptCandidate
  completedIterations : ℕ
  previousBestScore : ℚ
  stagnantIterations : ℕ
  report : APOReport
  timestamp : String
deriving DecidableEq, Inhabited

/-- The external LLM, as an oracle: `llmScore` answers the scoring
completion for a candidate prompt and a lead; `llmGenerate iteration i` is
the meta-prompt completion for the `i`-th candidate requested in the given
iteration (`none` when the call throws). -/
structure Env where
  llmScore : String → EvalLead → GenOutcome
  llmGenerate : ℕ → ℕ → Option String

/-- Modelled from the spec: `BASE_PROMPT`, the fixed baseline scoring
prompt.  The APO script imports it from the scoring-prompt module, whose
exported constant is not among the provided sources; its content is opaque
to every claim, so any fixed string is a faithful model. -/
def BASE_PROMPT : String := "BASE_PROMPT"

/-- Placeholder for the `Infinity` that initializes
`report.finalBestScore` (line 441); it is overwritten before the report is
returned, so no claim observes it. -/
def INFINITY_PLACEHOLDER : ℚ := 1000000000

/-- `generateCandidatePrompts` (lines 351-377): one `generateText` call per
requested candidate; a throwing call is skipped, so the list can be shorter
than `count`, and each successful completion is pushed trimmed, in request
order. -/
def generateCandidatePrompts (gen : ℕ → Option String) (count : ℕ) : List String :=
  (List.range count).filterMap (fun i => (gen i).map jsTrim)

/-- Stable insertion of a candidate into a list sorted by ascending
`score`. -/
def insertByScore (c : PromptCandidate) :
    List PromptCandidate → List PromptCandidate
  | [] => [c]
  | b :: bs => if b.score < c.score then b :: insertByScore c bs else c :: b :: bs

/-- Model of `beam.sort((a, b) => a.score - b.score)` (line 545): a stable
ascending sort by `score`, as in modern JS engines. -/
def sortByScore : List PromptCandidate → List PromptCandidate
  | [] => []
  | c :: cs => insertByScore c (sortByScore cs)

/-- Mutable state of the main loop of `runAPO`: the report being built, the
beam, `previousBestScore`, `stagnantIterations`; `llmCallsMade` is
instrumentation counting the `generateText` invocations actually performed
(one per scored lead and one per requested candidate), used to check the
`totalLLMCalls` bookkeeping of the report against reality. -/
structure LoopState where
  report : APOReport
  beam : List PromptCandidate
  previousBestScore : ℚ
  stagnantIterations : ℕ
  llmCallsMade : ℕ
deriving DecidableEq, Inhabited

/-- `pn.slice(0, 200) + "..."` (line 536). -/
def promptPreviewOf (p : String) : String := String.mk (p.data.take 200) ++ "..."

/-- One iteration of the main loop (lines 492-590, without the checkpoint
write): generate candidates, evaluate each, append to the beam, sort by
ascending MAE, truncate to `beamWidth`, record the iteration summary, and
update the stagnation counter from
`improvement = previousBestScore - bestInBeam.score`. -/
def runIteration (env : Env) (cfg : APOConfig) (evalSet : List EvalLead)
    (iteration : ℕ) (st : LoopState) : LoopState :=
  let newPrompts := generateCandidatePrompts (env.llmGenerate iteration)
    cfg.candidatesPerIteration
  let results := newPrompts.map
    (fun p => (p, evaluatePrompt env.llmScore p evalSet cfg.evalSubsetSize))
  let newCandidates : List PromptCandidate := results.map (fun pr =>
    { prompt := pr.1, score := pr.2.mae, accuracy := pr.2.accuracy,
      iteration := iteration, predictions := some pr.2.predictions })
  let iterationCandidates : List IterCandidateSummary := results.map (fun pr =>
    { score := pr.2.mae, accuracy := pr.2.accuracy,
      promptPreview := promptPreviewOf pr.1 })
  let beam2 := (sortByScore (st.beam ++ newCandidates)).take cfg.beamWidth
  let bestInBeam := beam2.headI
  let improvement := st.previousBestScore - bestInBeam.score
  { report := { st.report with
      totalLLMCalls := st.report.totalLLMCalls + cfg.candidatesPerIteration
        + newPrompts.length * evalSet.length,
      iterations := st.report.iterations ++
        [{ iteration := iteration, candidates := iterationCandidates,
           bestScore := bestInBeam.score, bestAccuracy := bestInBeam.accuracy }] },
    beam := beam2,
    previousBestScore := bestInBeam.score,
    stagnantIterations :=
      if improvement < cfg.earlyStopThreshold then st.stagnantIterations + 1 else 0,
    llmCallsMade := st.llmCallsMade + cfg.candidatesPerIteration
      + newPrompts.length * (leadsFor evalSet cfg.evalSubsetSize).length }

/-- The `for` loop of line 492 running from iteration number `iteration`
with `fuel` iterations left until `maxIterations` is exhausted, with the
early-stop `break` of line 586 when the stagnation counter reaches 2. -/
def runLoopFrom (env : Env) (cfg : APOConfig) (evalSet : List EvalLead) :
    ℕ → ℕ → LoopState → LoopState
  | _, 0, st => st
  | iteration, fuel + 1, st =>
    let st2 := runIteration env cfg evalSet iteration st
    if 2 ≤ st2.stagnantIterations then st2
    else runLoopFrom env cfg evalSet (iteration + 1) fuel st2

/-- Fresh-run initialization (lines 432-489): evaluate the baseline prompt,
seed the beam with it, count `evalSet.length` LLM calls in the report. -/
def freshInit (env : Env) (cfg : APOConfig) (evalSet : List EvalLead) : LoopState :=
  let baselineResult := evaluatePrompt env.llmScore BASE_PROMPT evalSet cfg.evalSubsetSize
  let rpt : APOReport :=
    { config := cfg, baselineScore := baselineResult.mae,
      baselineAccuracy := baselineResult.accuracy, iterations := [],
      finalBestPrompt := BASE_PROMPT, finalBestScore := INFINITY_PLACEHOLDER,
      finalBestAccuracy := 0, improvement := 0,
      totalLLMCalls := evalSet.length }
  let baselineCandidate : PromptCandidate :=
    { prompt := BASE_PROMPT, score := baselineResult.mae,
      accuracy := baselineResult.accuracy, iteration := 0,
      predictions := some baselineResult.predictions }
  { report := rpt,
    beam := [baselineCandidate],
    previousBestScore := baselineResult.mae,
    stagnantIterations := 0,
    llmCallsMade := (leadsFor evalSet cfg.evalSubsetSize).length }

/-- Resume initialization (lines 416-431): restore state from the
checkpoint and re-evaluate the best prompt to repopulate its stripped
predictions cache, adding `evalSet.length` to the call count.  (With an
empty checkpointed beam the script would crash reading `beam[0]`; the
program never writes one.) -/
def resumeInit (env : Env) (cfg : APOConfig) (evalSet : List EvalLead)
    (cp : APOCheckpoint) : LoopState × ℕ :=
  let bestResult := evaluatePrompt env.llmScore cp.beam.headI.prompt evalSet
    cfg.evalSubsetSize
  let beam :=
    match cp.beam with
    | [] => []
    | b :: rest => { b with predictions := some bestResult.predictions } :: rest
  ({ report := { cp.report with
       totalLLMCalls := cp.report.totalLLMCalls + evalSet.length },
     beam := beam,
     previousBestScore := cp.previousBestScore,
     stagnantIterations := cp.stagnantIterations,
     llmCallsMade := (leadsFor evalSet cfg.evalSubsetSize).length },
   cp.completedIterations + 1)

/-- State at the end of the main loop of `runAPO`, starting fresh
(`checkpoint = none`) or from a restored checkpoint. -/
def runAPOState (env : Env) (cfg : APOConfig) (evalSet : List EvalLead)
    (checkpoint : Option APOCheckpoint) : LoopState :=
  match checkpoint with
  | some cp =>
    let init := resumeInit env cfg evalSet cp
    runLoopFrom env cfg evalSet init.2 (cfg.maxIterations + 1 - init.2) init.1
  | none =>
    runLoopFrom env cfg evalSet 1 cfg.maxIterations (freshInit env cfg evalSet)

/-- Finalization (lines 592-597): fill the winning prompt from `beam[0]`
and `improvement = baselineScore - finalBestScore`. -/
def finalizeReport (st : LoopState) : APOReport :=
  let finalBest := st.beam.headI
  { st.report with
    finalBestPrompt := finalBest.prompt,
    finalBestScore := finalBest.score,
    finalBestAccuracy := finalBest.accuracy,
    improvement := st.report.baselineScore - finalBest.score }

/-- `runAPO` (lines 383-615) with the state already restored (or `none` for
a fresh start). -/
def runAPO (env : Env) (cfg : APOConfig) (evalSet : List EvalLead)
    (checkpoint : Option APOCheckpoint) : APOReport :=
  finalizeReport (runAPOState env cfg evalSet checkpoint)

/-! ### Checkpoint loading (lines 130-141) -/

/-- `loadCheckpoint`: `null` when the checkpoint file does not exist
(`file = none`) or when `JSON.parse` of its content throws; otherwise the
parsed JSON value (which the TS code casts to `APOCheckpoint` without
validation). -/
def loadCheckpoint (file : Option String) : Option Json :=
  match file with
  | none => none
  | some content => jsonParse content

/-- `runAPO(config, resume)` as invoked from the command line, reading the
checkpoint file when `--resume` was passed (lines 397-407).  The unchecked
`as APOCheckpoint` cast of line 136 is abstracted by the `decode`
parameter; every claim about this function is proved for all decoders. -/
def runAPOWithResume (decode : Json → Option APOCheckpoint) (env : Env)
    (cfg : APOConfig) (evalSet : List EvalLead)
    (resumeFromCheckpoint : Bool) (file : Option String) : APOReport :=
  let checkpoint : Option APOCheckpoint :=
    if resumeFromCheckpoint then (loadCheckpoint file).bind decode else none
  runAPO env cfg evalSet checkpoint

/-! ### Facts about the score parsing path -/

/-- The observable "the trimmed response parses as JSON carrying a numeric
`score` field with this value" (lines 213-214). -/
def parsedScore (raw : String) : Option ℚ :=
  (jsonParse (jsTrim raw)).bind jsScoreField

/-! ### Concrete fixtures used by the scenario parts of the claims -/

/-- An oracle whose every scoring call throws, so every prediction is the
default 5. -/
def llmErr : String → EvalLead → GenOutcome := fun _ _ => GenOutcome.err

def mkEvalLead (n : String) (e : ℚ) : EvalLead :=
  { name := n, title := "t", company := "c", linkedIn := "l",
    employeeRange := "51-200", expectedScore := e }

/-- The four labeled records of the C2 scenario, expected scores
[2, 5, 8, 10]. -/
def leadsC2 : List EvalLead :=
  [mkEvalLead "a" 2, mkEvalLead "b" 5, mkEvalLead "c" 8, mkEvalLead "d" 10]

/-- An oracle producing predictions [3, 5, 6, 10] on `leadsC2`. -/
def llmC2 : String → EvalLead → GenOutcome := fun _ lead =>
  if lead.name = "a" then GenOutcome.ok "\x7b\"score\": 3\x7d"
  else if lead.name = "b" then GenOutcome.ok "\x7b\"score\": 5\x7d"
  else if lead.name = "c" then GenOutcome.ok "\x7b\"score\": 6\x7d"
  else GenOutcome.ok "\x7b\"score\": 10\x7d"

/-- An oracle answering every scoring call with the same score and every
generation call with the same prompt text: each iteration then improves the
best MAE by 0, which is below every positive early-stop threshold. -/
def envConst : Env :=
  { llmScore := fun _ _ => GenOutcome.ok "\x7b\"score\": 5\x7d",
    llmGenerate := fun _ _ => some "candidate prompt" }

/-- A single lead whose expected score the constant oracle matches. -/
def leadC4 : EvalLead := mkEvalLead "a" 5

/-- A lead whose expected score is 10; with `envReset` the baseline prompt
scores it 0 (MAE 10) while every generated candidate scores it 10 (MAE 0),
so the first iteration improves the best MAE by 10 and the stagnation
counter resets to 0. -/
def leadReset : EvalLead := mkEvalLead "a" 10

def envReset : Env :=
  { llmScore := fun prompt _ =>
      if prompt = BASE_PROMPT then GenOutcome.ok "\x7b\"score\": 0\x7d"
      else GenOutcome.ok "\x7b\"score\": 10\x7d",
    llmGenerate := fun _ _ => some "improved prompt" }

/-- A configuration with a proper evaluation subset: one record out of two
per pass. -/
def cfgC8 : APOConfig :=
  { maxIterations := 1, candidatesPerIteration := 1, beamWidth := 1,
    earlyStopThreshold := 1 / 20, evalSubsetSize := some 1 }

theorem clampScore_nonneg (q : ℚ) : 0 ≤ clampScore q := by
  unfold clampScore jsMax
  split
  · assumption
  · exact le_refl 0

theorem clampScore_le_ten (q : ℚ) : clampScore q ≤ 10 := by
  unfold clampScore jsMax jsMin
  split <;> split <;> linarith

theorem numberFallback_nonneg (text : String) : 0 ≤ numberFallback text := by
  unfold numberFallback
  split
  · exact clampScore_nonneg _
  · norm_num

theorem numberFallback_le_ten (text : String) : numberFallback text ≤ 10 := by
  unfold numberFallback
  split
  · exact clampScore_le_ten _
  · norm_num

/-- Unfolding equation for the `ok` case of `scoreResponseText`. -/
theorem scoreResponseText_ok_eq (raw : String) :
    scoreResponseText (GenOutcome.ok raw) =
      (match jsonParse (jsTrim raw) with
       | some Json.null => numberFallback (jsTrim raw)
       | some j =>
         (match jsScoreField j with
          | some q => clampScore q
          | none => 5)
       | none => numberFallback (jsTrim raw)) := rfl

theorem scoreValue_mem (j : Json) :
    0 ≤ (match jsScoreField j with | some q => clampScore q | none => (5 : ℚ)) ∧
    (match jsScoreField j with | some q => clampScore q | none => (5 : ℚ)) ≤ 10 := by
  cases jsScoreField j with
  | none => constructor <;> norm_num
  | some q =>
    refine ⟨?_, ?_⟩ <;> dsimp only
    · exact clampScore_nonneg q
    · exact clampScore_le_ten q

theorem scoreResponseText_mem (outcome : GenOutcome) :
    0 ≤ scoreResponseText outcome ∧ scoreResponseText outcome ≤ 10 := by
  cases outcome with
  | err =>
    refine ⟨?_, ?_⟩
    · show (0 : ℚ) ≤ 5
      norm_num
    · show (5 : ℚ) ≤ 10
      norm_num
  | ok raw =>
    rw [scoreResponseText_ok_eq]
    cases jsonParse (jsTrim raw) with
    | none => exact ⟨numberFallback_nonneg _, numberFallback_le_ten _⟩
    | some j =>
      cases j with
      | null => exact ⟨numberFallback_nonneg _, numberFallback_le_ten _⟩
      | bool b => exact scoreValue_mem (Json.bool b)
      | num q0 => exact scoreValue_mem (Json.num q0)
      | str s0 => exact scoreValue_mem (Json.str s0)
      | arr xs => exact scoreValue_mem (Json.arr xs)
      | obj fs => exact scoreValue_mem (Json.obj fs)

theorem skipWs_append_of_ws (cs : List Char) :
    ∃ w, cs = w ++ skipWs cs ∧ ∀ c ∈ w, isJsonWs c = true := by
  induction cs with
  | nil => exact ⟨[], rfl, by simp⟩
  | cons c cs ih =>
    by_cases h : isJsonWs c
    · obtain ⟨w, hw, hws⟩ := ih
      refine ⟨c :: w, ?_, ?_⟩
      · simp only [skipWs, h, if_true, List.cons_append]
        exact congrArg (c :: ·) hw
      · intro c2 hc2
        rcases List.mem_cons.mp hc2 with rfl | hmem
        · exact h
        · exact hws c2 hmem
    · refine ⟨[], ?_, by simp⟩
      simp [skipWs, h]

theorem all_ws_of_skipWs_eq_nil {cs : List Char} (h : skipWs cs = []) :
    ∀ c ∈ cs, isJsonWs c = true := by
  induction cs with
  | nil => simp
  | cons c cs ih =>
    by_cases hc : isJsonWs c
    · simp only [skipWs, hc, if_true] at h
      intro c2 hc2
      rcases List.mem_cons.mp hc2 with rfl | hmem
      · exact hc
      · exact ih h c2 hmem
    · simp [skipWs, hc] at h

theorem isJsonWs_not_digit {c : Char} (h : isJsonWs c = true) : c.isDigit = false := by
  unfold isJsonWs at h
  have h2 : ((c = ' ' ∨ c = '\t') ∨ c = '\n') ∨ c = '\r' := by simpa using h
  rcases h2 with ((rfl | rfl) | rfl) | rfl <;> decide

theorem firstNumber_eq_none {cs : List Char} (h : ∀ c ∈ cs, c.isDigit = false) :
    firstNumber cs = none := by
  induction cs with
  | nil => rfl
  | cons c cs ih =>
    have hc : c.isDigit = false := h c (by simp)
    rw [firstNumber]
    simp only [hc, Bool.false_eq_true, if_false]
    exact ih (fun c2 hc2 => h c2 (List.mem_cons_of_mem _ hc2))

/-- The only input from which `parseValue` returns `null` is the literal
`null` itself: every other branch of the parser produces a different
constructor. -/
theorem parseValue_null_inv {fuel : ℕ} {cs rest : List Char}
    (h : parseValue fuel cs = some (Json.null, rest)) :
    cs = 'n' :: 'u' :: 'l' :: 'l' :: rest := by
  cases fuel with
  | zero => simp [parseValue] at h
  | succ fuel =>
    cases cs with
    | nil => simp [parseValue.eq_def] at h
    | cons c cs2 =>
      rw [parseValue.eq_def] at h
      repeat' split at h
      all_goals simp_all


/-- Any text that `JSON.parse` reads as `null` consists of whitespace around
the four letters of `null`, so it contains no digit. -/
theorem jsonParse_null_no_digits {s : String} (h : jsonParse s = some Json.null) :
    ∀ c ∈ s.data, c.isDigit = false := by
  unfold jsonParse at h
  split at h
  next j rest heq =>
    split at h
    next hrest =>
      have hj : j = Json.null := by injection h
      subst hj
      have hcs := parseValue_null_inv heq
      obtain ⟨w, hw, hws⟩ := skipWs_append_of_ws s.data
      have hrest2 : ∀ c ∈ rest, isJsonWs c = true :=
        all_ws_of_skipWs_eq_nil (List.isEmpty_iff.mp hrest)
      intro c hc
      rw [hw, hcs] at hc
      rcases List.mem_append.mp hc with hcw | hctail
      · exact isJsonWs_not_digit (hws c hcw)
      · have h3 : c = 'n' ∨ c = 'u' ∨ c = 'l' ∨ c = 'l' ∨ c ∈ rest := by
          simpa using hctail
        rcases h3 with rfl | rfl | rfl | rfl | hcr
        · decide
        · decide
        · decide
        · decide
        · exact isJsonWs_not_digit (hrest2 c hcr)
    next hrest => exact absurd h (by simp)
  next heq => exact absurd h (by simp)

/-- The `null` completion: `JSON.parse` succeeds, the `json.score` access
throws, the regex fallback runs on a digit-free text, and the default 5 is
returned. -/
theorem scoreResponseText_of_null {raw : String}
    (h : jsonParse (jsTrim raw) = some Json.null) :
    scoreResponseText (GenOutcome.ok raw) = 5 := by
  rw [scoreResponseText_ok_eq, h]
  show numberFallback (jsTrim raw) = 5
  unfold numberFallback
  rw [firstNumber_eq_none (jsonParse_null_no_digits h)]


/-- C1: for every model response, the score produced by
`scoreLeadWithPrompt` lies in [0, 10]: a trimmed response parsing as JSON
with a numeric `score` field gives that score clamped to [0, 10]; on JSON
parse failure the first decimal number found by the regex scan is clamped
to [0, 10]; when neither succeeds, or the scoring call itself throws, the
default midpoint 5 is returned. -/
theorem C1_score_clamped_with_fallbacks
    (llm : String → EvalLead → GenOutcome) (prompt : String) (lead : EvalLead)
    (outcome : GenOutcome) (raw : String) (q x : ℚ) :
    (0 ≤ scoreLeadWithPrompt llm prompt lead ∧
      scoreLeadWithPrompt llm prompt lead ≤ 10) ∧
    (0 ≤ scoreResponseText outcome ∧ scoreResponseText outcome ≤ 10) ∧
    (parsedScore raw = some q →
      scoreResponseText (GenOutcome.ok raw) = clampScore q) ∧
    (jsonParse (jsTrim raw) = none → firstNumber (jsTrim raw).data = some x →
      scoreResponseText (GenOutcome.ok raw) = clampScore x) ∧
    (jsonParse (jsTrim raw) = none → firstNumber (jsTrim raw).data = none →
      scoreResponseText (GenOutcome.ok raw) = 5) ∧
    scoreResponseText GenOutcome.err = 5 := by
  refine ⟨scoreResponseText_mem _, scoreResponseText_mem _, ?_, ?_, ?_, rfl⟩
  · intro h
    obtain ⟨j, hj, hs⟩ := Option.bind_eq_some.mp h
    rw [scoreResponseText_ok_eq, hj]
    cases j with
    | obj fields => dsimp only; rw [hs]
    | null => simp [jsScoreField, jsGetField] at hs
    | bool b => simp [jsScoreField, jsGetField] at hs
    | num q0 => simp [jsScoreField, jsGetField] at hs
    | str s0 => simp [jsScoreField, jsGetField] at hs
    | arr xs => simp [jsScoreField, jsGetField] at hs
  · intro hn hx
    rw [scoreResponseText_ok_eq, hn]
    show numberFallback (jsTrim raw) = clampScore x
    unfold numberFallback
    rw [hx]
  · intro hn hx
    rw [scoreResponseText_ok_eq, hn]
    show numberFallback (jsTrim raw) = 5
    unfold numberFallback
    rw [hx]

theorem C1_score_clamped_with_fallbacks_witness :
    (parsedScore " \x7b\"score\": 12\x7d " = some 12 ∧
      scoreResponseText (GenOutcome.ok " \x7b\"score\": 12\x7d ") = clampScore 12 ∧
      clampScore 12 = 10) ∧
    (jsonParse (jsTrim "Score: 8.5 out of 10") = none ∧
      firstNumber (jsTrim "Score: 8.5 out of 10").data = some (17 / 2) ∧
      scoreResponseText (GenOutcome.ok "Score: 8.5 out of 10") = clampScore (17 / 2)) ∧
    (jsonParse (jsTrim "no score here") = none ∧
      firstNumber (jsTrim "no score here").data = none ∧
      scoreResponseText (GenOutcome.ok "no score here") = 5) :=
  ⟨⟨by decide,
    (C1_score_clamped_with_fallbacks (fun _ _ => GenOutcome.err) "" default
      GenOutcome.err " \x7b\"score\": 12\x7d " 12 0).2.2.1 (by decide), by decide⟩,
   ⟨rfl, by decide,
    (C1_score_clamped_with_fallbacks (fun _ _ => GenOutcome.err) "" default
      GenOutcome.err "Score: 8.5 out of 10" 0 (17 / 2)).2.2.2.1 rfl (by decide)⟩,
   ⟨rfl, by decide,
    (C1_score_clamped_with_fallbacks (fun _ _ => GenOutcome.err) "" default
      GenOutcome.err "no score here" 0 0).2.2.2.2.1 rfl (by decide)⟩⟩

/-- C10: a trimmed response that parses as valid JSON but carries no
numeric `score` field -- a bare number such as `7`, or an object whose
`score` is the string `"7"` -- yields the default 5; the regex fallback is
never consulted after a successful parse, which is why the two
digit-containing examples return 5 and not 7. -/
theorem C10_wrong_shape_gives_default (raw : String) :
    ((jsonParse (jsTrim raw)).isSome = true → parsedScore raw = none →
      scoreResponseText (GenOutcome.ok raw) = 5) ∧
    scoreResponseText (GenOutcome.ok "7") = 5 ∧
    scoreResponseText (GenOutcome.ok "\x7b\"score\": \"7\"\x7d") = 5 := by
  refine ⟨?_, by decide, by decide⟩
  intro hsome hnone
  obtain ⟨j, hj⟩ := Option.isSome_iff_exists.mp hsome
  unfold parsedScore at hnone
  rw [hj] at hnone
  simp only [Option.some_bind] at hnone
  cases j <;>
    first
    | exact scoreResponseText_of_null hj
    | (rw [scoreResponseText_ok_eq, hj]; dsimp only; rw [hnone])

theorem C10_wrong_shape_gives_default_witness :
    (jsonParse (jsTrim "[3]")).isSome = true ∧ parsedScore "[3]" = none ∧
    scoreResponseText (GenOutcome.ok "[3]") = 5 :=
  ⟨by decide, by decide,
   (C10_wrong_shape_gives_default "[3]").1 (by decide) (by decide)⟩


/-! ### The evaluation engine: chunking collapses to a plain map -/

theorem foldl_append_map {α β : Type} (f : α → β) (cs : List (List α))
    (acc : List β) :
    cs.foldl (fun a c => a ++ c.map f) acc = acc ++ cs.flatten.map f := by
  induction cs generalizing acc with
  | nil => simp
  | cons c cs ih => simp [ih, List.map_append]

theorem chunkGo_join {α : Type} (size : ℕ) (hs : 1 ≤ size) :
    ∀ (fuel : ℕ) (xs : List α), xs.length ≤ fuel → (chunkGo size fuel xs).flatten = xs := by
  intro fuel
  induction fuel with
  | zero =>
    intro xs h
    cases xs with
    | nil => rfl
    | cons x rest => simp at h
  | succ fuel ih =>
    intro xs h
    cases xs with
    | nil => rfl
    | cons x rest =>
      show ((x :: rest).take size :: chunkGo size fuel (rest.drop (size - 1))).flatten
        = x :: rest
      rw [List.flatten_cons]
      rw [ih (rest.drop (size - 1)) (by simp only [List.length_drop]; simp at h; omega)]
      obtain ⟨k, rfl⟩ : ∃ k, size = k + 1 := ⟨size - 1, by omega⟩
      simp only [List.take_succ_cons, Nat.add_sub_cancel, List.cons_append,
        List.take_append_drop]

theorem chunkList_join {α : Type} {size : ℕ} (hs : 1 ≤ size) (xs : List α) :
    (chunkList size xs).flatten = xs :=
  chunkGo_join size hs xs.length xs (le_refl _)

/-- The chunked, per-chunk-concurrent scoring loop of lines 256-272
produces exactly one prediction per selected lead, in order. -/
theorem evaluatePrompt_predictions (llm : String → EvalLead → GenOutcome)
    (prompt : String) (evalSet : List EvalLead) (subsetSize : Option ℤ) :
    (evaluatePrompt llm prompt evalSet subsetSize).predictions =
      (leadsFor evalSet subsetSize).map (mkPrediction llm prompt) := by
  show (chunkList CHUNK_SIZE (leadsFor evalSet subsetSize)).foldl
      (fun acc c => acc ++ c.map (mkPrediction llm prompt)) [] = _
  rw [foldl_append_map, chunkList_join (by norm_num [CHUNK_SIZE])]
  simp

theorem evaluatePrompt_mae_eq (llm : String → EvalLead → GenOutcome)
    (prompt : String) (evalSet : List EvalLead) (subsetSize : Option ℤ) :
    (evaluatePrompt llm prompt evalSet subsetSize).mae =
      ((evaluatePrompt llm prompt evalSet subsetSize).predictions.map
        Prediction.error).sum /
        ((evaluatePrompt llm prompt evalSet subsetSize).predictions.length : ℚ) := rfl

theorem evaluatePrompt_accuracy_eq (llm : String → EvalLead → GenOutcome)
    (prompt : String) (evalSet : List EvalLead) (subsetSize : Option ℤ) :
    (evaluatePrompt llm prompt evalSet subsetSize).accuracy =
      (((evaluatePrompt llm prompt evalSet subsetSize).predictions.filter
        (fun p => p.error ≤ 1)).length : ℚ) /
        ((evaluatePrompt llm prompt evalSet subsetSize).predictions.length : ℚ) := rfl

theorem leadsFor_nil (subsetSize : Option ℤ) : leadsFor [] subsetSize = [] := by
  cases subsetSize with
  | none => rfl
  | some n =>
    by_cases h : n ≠ 0
    · simp [leadsFor, jsSliceTo, h]
    · simp [leadsFor, jsSliceTo, h]


/-- C2: on a non-empty evaluation set `evaluatePrompt` returns one
prediction per record carrying `error = |predicted - expected|`, MAE equal
to the mean absolute error over the records, and accuracy equal to the
fraction of records within the plus-or-minus-1 tolerance; on expected
scores [2, 5, 8, 10] with predictions [3, 5, 6, 10] this gives MAE = 0.75
and accuracy = 0.75. -/
theorem C2_evaluatePrompt_metrics (llm : String → EvalLead → GenOutcome)
    (prompt : String) (evalSet : List EvalLead) (subsetSize : Option ℤ)
    (hne : leadsFor evalSet subsetSize ≠ []) :
    (evaluatePrompt llm prompt evalSet subsetSize).predictions =
      (leadsFor evalSet subsetSize).map (mkPrediction llm prompt) ∧
    0 < (evaluatePrompt llm prompt evalSet subsetSize).predictions.length ∧
    (∀ p ∈ (evaluatePrompt llm prompt evalSet subsetSize).predictions,
      p.predicted = scoreLeadWithPrompt llm prompt p.lead ∧
      p.expected = p.lead.expectedScore ∧
      p.error = |p.predicted - p.expected|) ∧
    (evaluatePrompt llm prompt evalSet subsetSize).mae =
      ((leadsFor evalSet subsetSize).map
        (fun l => |scoreLeadWithPrompt llm prompt l - l.expectedScore|)).sum /
        ((leadsFor evalSet subsetSize).length : ℚ) ∧
    (evaluatePrompt llm prompt evalSet subsetSize).accuracy =
      (((leadsFor evalSet subsetSize).filter
        (fun l => |scoreLeadWithPrompt llm prompt l - l.expectedScore| ≤ 1)).length : ℚ) /
        ((leadsFor evalSet subsetSize).length : ℚ) ∧
    (evaluatePrompt llmC2 "p" leadsC2 none).mae = 3 / 4 ∧
    (evaluatePrompt llmC2 "p" leadsC2 none).accuracy = 3 / 4 := by
  refine ⟨evaluatePrompt_predictions llm prompt evalSet subsetSize, ?_, ?_, ?_, ?_,
    by decide, by decide⟩
  · rw [evaluatePrompt_predictions, List.length_map]
    exact List.length_pos.mpr hne
  · intro p hp
    rw [evaluatePrompt_predictions] at hp
    obtain ⟨l, hl, rfl⟩ := List.mem_map.mp hp
    exact ⟨rfl, rfl, rfl⟩
  · rw [evaluatePrompt_mae_eq, evaluatePrompt_predictions, List.map_map,
      List.length_map]
    rfl
  · rw [evaluatePrompt_accuracy_eq, evaluatePrompt_predictions, List.filter_map,
      List.length_map, List.length_map]
    rfl

theorem C2_evaluatePrompt_metrics_witness :
    leadsFor leadsC2 none ≠ [] ∧
    (evaluatePrompt llmC2 "p" leadsC2 none).predictions =
      (leadsFor leadsC2 none).map (mkPrediction llmC2 "p") ∧
    (evaluatePrompt llmC2 "p" leadsC2 none).mae = 3 / 4 :=
  ⟨by decide,
   (C2_evaluatePrompt_metrics llmC2 "p" leadsC2 none (by decide)).1,
   (C2_evaluatePrompt_metrics llmC2 "p" leadsC2 none (by decide)).2.2.2.2.2.1⟩

/-- C7 counterexample: the claim says a provided subset size N selects the
first N records; with the provided subset size 0 (falsy in JS) and a
one-record set, the code evaluates 1 record while the first 0 records are
none at all. -/
theorem C7_counterexample :
    (evaluatePrompt llmErr "p" [mkEvalLead "a" 2] (some 0)).predictions ≠
      (([mkEvalLead "a" 2].take 0).map (mkPrediction llmErr "p")) := by decide

/-- C7 amended: a provided positive subset size N deterministically selects
the first N records in file order (all of them when N exceeds the set
size); with no subset size -- or with the falsy subset size 0 -- every
record is evaluated. -/
theorem C7_first_n_records (llm : String → EvalLead → GenOutcome)
    (prompt : String) (evalSet : List EvalLead) (n : ℤ) (hn : 0 < n) :
    (evaluatePrompt llm prompt evalSet (some n)).predictions =
      (evalSet.take n.toNat).map (mkPrediction llm prompt) ∧
    (evaluatePrompt llm prompt evalSet none).predictions =
      evalSet.map (mkPrediction llm prompt) ∧
    (evaluatePrompt llm prompt evalSet (some 0)).predictions =
      evalSet.map (mkPrediction llm prompt) := by
  have hpos : leadsFor evalSet (some n) = evalSet.take n.toNat := by
    show (if n ≠ 0 then jsSliceTo evalSet n else evalSet) = _
    rw [if_pos (by omega : n ≠ 0)]
    show (if n < 0 then _ else evalSet.take n.toNat) = _
    rw [if_neg (by omega : ¬ n < 0)]
  have hzero : leadsFor evalSet (some 0) = evalSet := by
    show (if (0 : ℤ) ≠ 0 then jsSliceTo evalSet 0 else evalSet) = evalSet
    rw [if_neg (by omega : ¬ (0 : ℤ) ≠ 0)]
  refine ⟨?_, ?_, ?_⟩
  · rw [evaluatePrompt_predictions, hpos]
  · rw [evaluatePrompt_predictions]
    rfl
  · rw [evaluatePrompt_predictions, hzero]

theorem C7_first_n_records_witness :
    (0 : ℤ) < 1 ∧
    (evaluatePrompt llmErr "p" [mkEvalLead "a" 2, mkEvalLead "b" 5]
      (some 1)).predictions =
      (([mkEvalLead "a" 2, mkEvalLead "b" 5].take ((1 : ℤ).toNat)).map
        (mkPrediction llmErr "p")) :=
  ⟨by norm_num,
   (C7_first_n_records llmErr "p" [mkEvalLead "a" 2, mkEvalLead "b" 5] 1
     (by norm_num)).1⟩

/-- C9: applied to an empty record list, the unguarded divisions of lines
275 and 278 make both metrics NaN under JS float semantics (no exception is
raised: the computation is total); on any run with at least one prediction
the JS metrics agree with the exact rational metrics of the result. -/
theorem C9_empty_eval_set_nan (llm : String → EvalLead → GenOutcome)
    (prompt : String) (subsetSize : Option ℤ) :
    (evaluatePrompt llm prompt [] subsetSize).predictions = [] ∧
    maeJs (evaluatePrompt llm prompt [] subsetSize).predictions = JsNum.nan ∧
    accuracyJs (evaluatePrompt llm prompt [] subsetSize).predictions = JsNum.nan ∧
    (∀ evalSet : List EvalLead,
      (evaluatePrompt llm prompt evalSet subsetSize).predictions ≠ [] →
      maeJs (evaluatePrompt llm prompt evalSet subsetSize).predictions =
        JsNum.val (evaluatePrompt llm prompt evalSet subsetSize).mae ∧
      accuracyJs (evaluatePrompt llm prompt evalSet subsetSize).predictions =
        JsNum.val (evaluatePrompt llm prompt evalSet subsetSize).accuracy) := by
  have hemp : (evaluatePrompt llm prompt [] subsetSize).predictions = [] := by
    rw [evaluatePrompt_predictions, leadsFor_nil]
    rfl
  refine ⟨hemp, by rw [hemp]; rfl, by rw [hemp]; rfl, ?_⟩
  intro evalSet hne
  have hlen : ¬ (evaluatePrompt llm prompt evalSet subsetSize).predictions.length = 0 :=
    fun h => hne (List.length_eq_zero.mp h)
  constructor
  · unfold maeJs
    rw [if_neg hlen, evaluatePrompt_mae_eq]
  · unfold accuracyJs
    rw [if_neg hlen, evaluatePrompt_accuracy_eq]

theorem C9_empty_eval_set_nan_witness :
    maeJs (evaluatePrompt llmErr "p" [] none).predictions = JsNum.nan ∧
    accuracyJs (evaluatePrompt llmErr "p" [] none).predictions = JsNum.nan ∧
    (evaluatePrompt llmErr "p" [mkEvalLead "a" 2] none).predictions ≠ [] ∧
    maeJs (evaluatePrompt llmErr "p" [mkEvalLead "a" 2] none).predictions =
      JsNum.val (evaluatePrompt llmErr "p" [mkEvalLead "a" 2] none).mae :=
  ⟨(C9_empty_eval_set_nan llmErr "p" none).2.1,
   (C9_empty_eval_set_nan llmErr "p" none).2.2.1,
   by decide,
   ((C9_empty_eval_set_nan llmErr "p" none).2.2.2 [mkEvalLead "a" 2] (by decide)).1⟩


/-! ### Beam maintenance: sorting, truncation, and the best-first invariant -/

theorem insertByScore_perm (c : PromptCandidate) (xs : List PromptCandidate) :
    List.Perm (insertByScore c xs) (c :: xs) := by
  induction xs with
  | nil => exact List.Perm.refl _
  | cons b bs ih =>
    unfold insertByScore
    split
    · exact (List.Perm.cons b ih).trans (List.Perm.swap c b bs)
    · exact List.Perm.refl _

theorem sortByScore_perm (xs : List PromptCandidate) :
    List.Perm (sortByScore xs) xs := by
  induction xs with
  | nil => exact List.Perm.refl _
  | cons c cs ih =>
    exact (insertByScore_perm c (sortByScore cs)).trans (List.Perm.cons c ih)

theorem insertByScore_pairwise {c : PromptCandidate} {xs : List PromptCandidate}
    (hx : List.Pairwise (fun a b => a.score ≤ b.score) xs) :
    List.Pairwise (fun a b => a.score ≤ b.score) (insertByScore c xs) := by
  induction xs with
  | nil => simp [insertByScore]
  | cons b bs ih =>
    rcases List.pairwise_cons.mp hx with ⟨hb, hbs⟩
    unfold insertByScore
    split
    next h =>
      refine List.pairwise_cons.mpr ⟨?_, ih hbs⟩
      intro x hxmem
      rcases List.mem_cons.mp ((insertByScore_perm c bs).mem_iff.mp hxmem) with rfl | hxb
      · exact le_of_lt h
      · exact hb x hxb
    next h =>
      refine List.pairwise_cons.mpr ⟨?_, hx⟩
      intro x hxmem
      rcases List.mem_cons.mp hxmem with rfl | hxbs
      · exact le_of_not_lt h
      · exact le_trans (le_of_not_lt h) (hb x hxbs)

theorem sortByScore_pairwise (xs : List PromptCandidate) :
    List.Pairwise (fun a b => a.score ≤ b.score) (sortByScore xs) := by
  induction xs with
  | nil => simp [sortByScore]
  | cons c cs ih => exact insertByScore_pairwise ih

theorem headI_mem_self {l : List PromptCandidate} (hl : l ≠ []) : l.headI ∈ l := by
  cases l with
  | nil => exact absurd rfl hl
  | cons a t => exact List.mem_cons_self a t

theorem sortByScore_headI_le {xs : List PromptCandidate} {x : PromptCandidate}
    (hx : x ∈ xs) : (sortByScore xs).headI.score ≤ x.score := by
  have hmem : x ∈ sortByScore xs := (sortByScore_perm xs).mem_iff.mpr hx
  have hp := sortByScore_pairwise xs
  cases hs : sortByScore xs with
  | nil => rw [hs] at hmem; exact absurd hmem (List.not_mem_nil x)
  | cons a l =>
    rw [hs] at hmem hp
    rcases List.mem_cons.mp hmem with rfl | hm
    · exact le_refl _
    · exact (List.pairwise_cons.mp hp).1 x hm

theorem take_ne_nil_of_ne_nil {xs : List PromptCandidate} {n : ℕ} (hn : 1 ≤ n)
    (hx : xs ≠ []) : xs.take n ≠ [] := by
  cases xs with
  | nil => exact absurd rfl hx
  | cons a l =>
    obtain ⟨m, rfl⟩ : ∃ m, n = m + 1 := ⟨n - 1, by omega⟩
    simp

theorem headI_take_of_le {xs : List PromptCandidate} {n : ℕ} (hn : 1 ≤ n) :
    (xs.take n).headI = xs.headI := by
  cases xs with
  | nil => simp
  | cons a l =>
    obtain ⟨m, rfl⟩ : ∃ m, n = m + 1 := ⟨n - 1, by omega⟩
    rfl

theorem sortByScore_ne_nil {xs : List PromptCandidate} (hx : xs ≠ []) :
    sortByScore xs ≠ [] := by
  intro h
  have hp := sortByScore_perm xs
  rw [h] at hp
  exact hx hp.symm.eq_nil

/-- The beam after one iteration is the append-sort-truncate of the previous
beam and the freshly evaluated candidates (lines 525-546). -/
theorem runIteration_beam_shape (env : Env) (cfg : APOConfig)
    (evalSet : List EvalLead) (iteration : ℕ) (st : LoopState) :
    ∃ newCands, (runIteration env cfg evalSet iteration st).beam =
      (sortByScore (st.beam ++ newCands)).take cfg.beamWidth :=
  ⟨_, rfl⟩

/-- C3: with beamWidth at least 1 the freshly populated beam is a sorted
singleton within the width, and after the append-sort-truncate step of
every iteration the beam has length at most beamWidth, is sorted by
ascending MAE, and its first element has the minimal score: beam[0].score
is at most beam[i].score for every index i. -/
theorem C3_beam_sorted_bounded (env : Env) (cfg : APOConfig)
    (evalSet : List EvalLead) (iteration : ℕ) (st : LoopState) (i : ℕ)
    (hbw : 1 ≤ cfg.beamWidth)
    (hi : i < (runIteration env cfg evalSet iteration st).beam.length) :
    ((freshInit env cfg evalSet).beam.length ≤ cfg.beamWidth ∧
      List.Pairwise (fun a b => a.score ≤ b.score)
        (freshInit env cfg evalSet).beam) ∧
    (runIteration env cfg evalSet iteration st).beam.length ≤ cfg.beamWidth ∧
    List.Pairwise (fun a b => a.score ≤ b.score)
      (runIteration env cfg evalSet iteration st).beam ∧
    ((runIteration env cfg evalSet iteration st).beam.get
        ⟨0, Nat.lt_of_le_of_lt (Nat.zero_le i) hi⟩).score ≤
      ((runIteration env cfg evalSet iteration st).beam.get ⟨i, hi⟩).score := by
  obtain ⟨cands, hB⟩ := runIteration_beam_shape env cfg evalSet iteration st
  have hpair : List.Pairwise (fun a b => a.score ≤ b.score)
      (runIteration env cfg evalSet iteration st).beam := by
    rw [hB]
    exact (sortByScore_pairwise _).sublist (List.take_sublist _ _)
  refine ⟨⟨?_, ?_⟩, ?_, hpair, ?_⟩
  · show 1 ≤ cfg.beamWidth
    exact hbw
  · show List.Pairwise _ [_]
    simp
  · rw [hB, List.length_take]
    exact min_le_left _ _
  · rcases Nat.eq_zero_or_pos i with rfl | hpos
    · exact le_refl _
    · exact List.pairwise_iff_get.mp hpair
        ⟨0, Nat.lt_of_le_of_lt (Nat.zero_le i) hi⟩ ⟨i, hi⟩ hpos

theorem C3_beam_sorted_bounded_witness :
    1 ≤ DEFAULT_CONFIG.beamWidth ∧
    (runIteration envConst DEFAULT_CONFIG [leadC4] 1
      (freshInit envConst DEFAULT_CONFIG [leadC4])).beam.length ≤
      DEFAULT_CONFIG.beamWidth :=
  ⟨by decide,
   (C3_beam_sorted_bounded envConst DEFAULT_CONFIG [leadC4] 1
     (freshInit envConst DEFAULT_CONFIG [leadC4]) 0 (by decide) (by decide)).2.1⟩


/-- One iteration never worsens the best (first) beam candidate: the
truncated sorted beam retains the minimum of the previous beam and the new
candidates. -/
theorem runIteration_best_le (env : Env) (cfg : APOConfig)
    (evalSet : List EvalLead) (iteration : ℕ) (st : LoopState)
    (hbw : 1 ≤ cfg.beamWidth) (hne : st.beam ≠ []) :
    (runIteration env cfg evalSet iteration st).beam ≠ [] ∧
    (runIteration env cfg evalSet iteration st).beam.headI.score ≤
      st.beam.headI.score := by
  obtain ⟨cands, hB⟩ := runIteration_beam_shape env cfg evalSet iteration st
  have happ : st.beam ++ cands ≠ [] := by
    intro h
    exact hne (List.append_eq_nil.mp h).1
  have hsne := sortByScore_ne_nil happ
  constructor
  · rw [hB]
    exact take_ne_nil_of_ne_nil hbw hsne
  · rw [hB, headI_take_of_le hbw]
    exact sortByScore_headI_le (List.mem_append_left _ (headI_mem_self hne))

theorem runIteration_baselineScore (env : Env) (cfg : APOConfig)
    (evalSet : List EvalLead) (iteration : ℕ) (st : LoopState) :
    (runIteration env cfg evalSet iteration st).report.baselineScore =
      st.report.baselineScore := rfl

theorem runLoopFrom_succ (env : Env) (cfg : APOConfig) (evalSet : List EvalLead)
    (iteration fuel : ℕ) (st : LoopState) :
    runLoopFrom env cfg evalSet iteration (fuel + 1) st =
      (if 2 ≤ (runIteration env cfg evalSet iteration st).stagnantIterations
       then runIteration env cfg evalSet iteration st
       else runLoopFrom env cfg evalSet (iteration + 1) fuel
         (runIteration env cfg evalSet iteration st)) := rfl

/-- Along the whole loop the beam stays non-empty, its best score never
increases, and the recorded baseline score is untouched. -/
theorem runLoopFrom_invariant (env : Env) (cfg : APOConfig)
    (evalSet : List EvalLead) (hbw : 1 ≤ cfg.beamWidth) :
    ∀ (fuel iteration : ℕ) (st : LoopState), st.beam ≠ [] →
      (runLoopFrom env cfg evalSet iteration fuel st).beam ≠ [] ∧
      (runLoopFrom env cfg evalSet iteration fuel st).beam.headI.score ≤
        st.beam.headI.score ∧
      (runLoopFrom env cfg evalSet iteration fuel st).report.baselineScore =
        st.report.baselineScore := by
  intro fuel
  induction fuel with
  | zero => exact fun it st hne => ⟨hne, le_refl _, rfl⟩
  | succ fuel ih =>
    intro it st hne
    obtain ⟨hne2, hle⟩ := runIteration_best_le env cfg evalSet it st hbw hne
    rw [runLoopFrom_succ]
    by_cases hstop : 2 ≤ (runIteration env cfg evalSet it st).stagnantIterations
    · rw [if_pos hstop]
      exact ⟨hne2, hle, rfl⟩
    · rw [if_neg hstop]
      obtain ⟨h1, h2, h3⟩ := ih (it + 1) (runIteration env cfg evalSet it st) hne2
      exact ⟨h1, le_trans h2 hle,
        h3.trans (runIteration_baselineScore env cfg evalSet it st)⟩

theorem freshInit_beam_length (env : Env) (cfg : APOConfig)
    (evalSet : List EvalLead) : (freshInit env cfg evalSet).beam.length = 1 := rfl

theorem freshInit_beam_ne_nil (env : Env) (cfg : APOConfig)
    (evalSet : List EvalLead) : (freshInit env cfg evalSet).beam ≠ [] := by
  intro h
  have hl := freshInit_beam_length env cfg evalSet
  rw [h] at hl
  simp at hl

theorem freshInit_headI_score (env : Env) (cfg : APOConfig)
    (evalSet : List EvalLead) :
    (freshInit env cfg evalSet).beam.headI.score =
      (freshInit env cfg evalSet).report.baselineScore := rfl

theorem finalizeReport_improvement (st : LoopState) :
    (finalizeReport st).improvement =
      st.report.baselineScore - st.beam.headI.score := rfl

/-- C5: with beamWidth at least 1 (all MAE values being exact rationals,
never NaN), the best beam score never increases across an iteration, since
the truncated sorted beam keeps the minimum of the previous beam and the
new candidates; consequently a fresh run ends with
improvement = baselineScore - finalBestScore at least 0. -/
theorem C5_best_score_monotone (env : Env) (cfg : APOConfig)
    (evalSet : List EvalLead) (iteration : ℕ) (st : LoopState)
    (hbw : 1 ≤ cfg.beamWidth) (hne : st.beam ≠ []) :
    ((runIteration env cfg evalSet iteration st).beam ≠ [] ∧
      (runIteration env cfg evalSet iteration st).beam.headI.score ≤
        st.beam.headI.score) ∧
    0 ≤ (runAPO env cfg evalSet none).improvement := by
  refine ⟨runIteration_best_le env cfg evalSet iteration st hbw hne, ?_⟩
  obtain ⟨h1, h2, h3⟩ := runLoopFrom_invariant env cfg evalSet hbw
    cfg.maxIterations 1 (freshInit env cfg evalSet)
    (freshInit_beam_ne_nil env cfg evalSet)
  show 0 ≤ (finalizeReport (runLoopFrom env cfg evalSet 1 cfg.maxIterations
    (freshInit env cfg evalSet))).improvement
  rw [finalizeReport_improvement, h3, ← freshInit_headI_score]
  exact sub_nonneg.mpr h2

theorem C5_best_score_monotone_witness :
    1 ≤ DEFAULT_CONFIG.beamWidth ∧
    (freshInit envConst DEFAULT_CONFIG [leadC4]).beam ≠ [] ∧
    0 ≤ (runAPO envConst DEFAULT_CONFIG [leadC4] none).improvement :=
  ⟨by decide, by decide,
   (C5_best_score_monotone envConst DEFAULT_CONFIG [leadC4] 1
     (freshInit envConst DEFAULT_CONFIG [leadC4]) (by decide) (by decide)).2⟩


/-! ### The main loop: stagnation counting, early stop, call accounting -/

theorem leadsFor_none (evalSet : List EvalLead) : leadsFor evalSet none = evalSet := rfl

/-- C4: in every iteration, the stagnation counter is incremented exactly
when improvement = previousBestScore - newBestScore is below
earlyStopThreshold (default 0.05 = 1/20) and is reset to 0 otherwise;
whenever the counter reaches 2 the loop returns without running further
iterations; and every fresh run whose first two iterations each improve
the best score by less than the threshold stops after the second of its
at least 2 allowed iterations, recording exactly 2 of them. -/
theorem C4_early_stop (env : Env) (cfg : APOConfig) (evalSet : List EvalLead)
    (iteration fuel : ℕ) (st : LoopState) :
    (runIteration env cfg evalSet iteration st).stagnantIterations =
      (if st.previousBestScore -
          (runIteration env cfg evalSet iteration st).previousBestScore <
          cfg.earlyStopThreshold
       then st.stagnantIterations + 1 else 0) ∧
    (2 ≤ (runIteration env cfg evalSet iteration st).stagnantIterations →
      runLoopFrom env cfg evalSet iteration (fuel + 1) st =
        runIteration env cfg evalSet iteration st) ∧
    (2 ≤ cfg.maxIterations →
      (freshInit env cfg evalSet).previousBestScore -
          (runIteration env cfg evalSet 1
            (freshInit env cfg evalSet)).previousBestScore <
          cfg.earlyStopThreshold →
      (runIteration env cfg evalSet 1
            (freshInit env cfg evalSet)).previousBestScore -
          (runIteration env cfg evalSet 2 (runIteration env cfg evalSet 1
            (freshInit env cfg evalSet))).previousBestScore <
          cfg.earlyStopThreshold →
      runAPOState env cfg evalSet none =
        runIteration env cfg evalSet 2
          (runIteration env cfg evalSet 1 (freshInit env cfg evalSet)) ∧
      (runAPOState env cfg evalSet none).report.iterations.length = 2) ∧
    DEFAULT_CONFIG.earlyStopThreshold = 1 / 20 ∧
    DEFAULT_CONFIG.maxIterations = 5 := by
  have hrule : ∀ (it : ℕ) (s : LoopState),
      (runIteration env cfg evalSet it s).stagnantIterations =
        (if s.previousBestScore -
            (runIteration env cfg evalSet it s).previousBestScore <
            cfg.earlyStopThreshold
         then s.stagnantIterations + 1 else 0) := fun it s => rfl
  refine ⟨rfl, ?_, ?_, rfl, rfl⟩
  · intro hstop
    rw [runLoopFrom_succ, if_pos hstop]
  · intro hmax h1 h2
    have hs1 : (runIteration env cfg evalSet 1
        (freshInit env cfg evalSet)).stagnantIterations = 1 := by
      rw [hrule, if_pos h1]
      rfl
    have hs2 : (runIteration env cfg evalSet 2 (runIteration env cfg evalSet 1
        (freshInit env cfg evalSet))).stagnantIterations = 2 := by
      rw [hrule, if_pos h2, hs1]
    have hrun : runAPOState env cfg evalSet none =
        runIteration env cfg evalSet 2
          (runIteration env cfg evalSet 1 (freshInit env cfg evalSet)) := by
      obtain ⟨m, hm⟩ : ∃ m, cfg.maxIterations = m + 2 :=
        ⟨cfg.maxIterations - 2, by omega⟩
      show runLoopFrom env cfg evalSet 1 cfg.maxIterations
        (freshInit env cfg evalSet) = _
      rw [hm]
      show runLoopFrom env cfg evalSet 1 (m + 1 + 1) _ = _
      rw [runLoopFrom_succ, if_neg (by rw [hs1]; omega)]
      show runLoopFrom env cfg evalSet 2 (m + 1)
        (runIteration env cfg evalSet 1 (freshInit env cfg evalSet)) = _
      rw [runLoopFrom_succ, if_pos (by rw [hs2])]
    have hlen : ∀ (it : ℕ) (s : LoopState),
        (runIteration env cfg evalSet it s).report.iterations.length =
          s.report.iterations.length + 1 := by
      intro it s
      obtain ⟨x, hx⟩ : ∃ x, (runIteration env cfg evalSet it s).report.iterations =
          s.report.iterations ++ [x] := ⟨_, rfl⟩
      rw [hx]
      simp
    refine ⟨hrun, ?_⟩
    rw [hrun, hlen, hlen]
    rfl

theorem C4_early_stop_witness :
    (runIteration envConst DEFAULT_CONFIG [leadC4] 1
      (freshInit envConst DEFAULT_CONFIG [leadC4])).stagnantIterations = 1 ∧
    (runIteration envReset DEFAULT_CONFIG [leadReset] 1
      (freshInit envReset DEFAULT_CONFIG [leadReset])).stagnantIterations = 0 ∧
    runLoopFrom envConst DEFAULT_CONFIG [leadC4] 2 (3 + 1)
      (runIteration envConst DEFAULT_CONFIG [leadC4] 1
        (freshInit envConst DEFAULT_CONFIG [leadC4])) =
      runIteration envConst DEFAULT_CONFIG [leadC4] 2
        (runIteration envConst DEFAULT_CONFIG [leadC4] 1
          (freshInit envConst DEFAULT_CONFIG [leadC4])) ∧
    (runAPOState envConst DEFAULT_CONFIG [leadC4] none).report.iterations.length
      = 2 := by
  refine ⟨?_, ?_, ?_, ?_⟩
  · rw [(C4_early_stop envConst DEFAULT_CONFIG [leadC4] 1 0
      (freshInit envConst DEFAULT_CONFIG [leadC4])).1]
    decide
  · rw [(C4_early_stop envReset DEFAULT_CONFIG [leadReset] 1 0
      (freshInit envReset DEFAULT_CONFIG [leadReset])).1]
    decide
  · exact (C4_early_stop envConst DEFAULT_CONFIG [leadC4] 2 3
      (runIteration envConst DEFAULT_CONFIG [leadC4] 1
        (freshInit envConst DEFAULT_CONFIG [leadC4]))).2.1 (by decide)
  · exact ((C4_early_stop envConst DEFAULT_CONFIG [leadC4] 1 0
      (freshInit envConst DEFAULT_CONFIG [leadC4])).2.2.1 (by decide) (by decide)
      (by decide)).2

/-- C8 counterexample: with `evalSubsetSize = 1` on a two-record set, each
evaluation pass makes 1 scoring call but the report adds the full set size
2, so the reported totalLLMCalls (5) is not the number of LLM calls
actually made (3, instrumented by `llmCallsMade`). -/
theorem C8_counterexample :
    (runAPOState envConst cfgC8 [leadC4, mkEvalLead "b" 8]
      none).report.totalLLMCalls ≠
      (runAPOState envConst cfgC8 [leadC4, mkEvalLead "b" 8]
        none).llmCallsMade := by decide

theorem runIteration_totalLLMCalls (env : Env) (cfg : APOConfig)
    (evalSet : List EvalLead) (iteration : ℕ) (st : LoopState) :
    (runIteration env cfg evalSet iteration st).report.totalLLMCalls =
      st.report.totalLLMCalls + cfg.candidatesPerIteration +
        (generateCandidatePrompts (env.llmGenerate iteration)
          cfg.candidatesPerIteration).length * evalSet.length := rfl

theorem runIteration_llmCallsMade (env : Env) (cfg : APOConfig)
    (evalSet : List EvalLead) (iteration : ℕ) (st : LoopState) :
    (runIteration env cfg evalSet iteration st).llmCallsMade =
      st.llmCallsMade + cfg.candidatesPerIteration +
        (generateCandidatePrompts (env.llmGenerate iteration)
          cfg.candidatesPerIteration).length *
          (leadsFor evalSet cfg.evalSubsetSize).length := rfl

/-- When no evaluation subset is configured, the report counter and the
instrumented call count advance in lockstep through the loop. -/
theorem runLoopFrom_calls (env : Env) (cfg : APOConfig) (evalSet : List EvalLead)
    (hsub : cfg.evalSubsetSize = none) :
    ∀ (fuel iteration : ℕ) (st : LoopState) (base : ℕ),
      st.report.totalLLMCalls = base + st.llmCallsMade →
      (runLoopFrom env cfg evalSet iteration fuel st).report.totalLLMCalls =
        base + (runLoopFrom env cfg evalSet iteration fuel st).llmCallsMade := by
  intro fuel
  induction fuel with
  | zero => exact fun it st base h => h
  | succ fuel ih =>
    intro it st base h
    have hstep : (runIteration env cfg evalSet it st).report.totalLLMCalls =
        base + (runIteration env cfg evalSet it st).llmCallsMade := by
      rw [runIteration_totalLLMCalls, runIteration_llmCallsMade, hsub,
        leadsFor_none, h]
      simp [Nat.add_assoc]
    rw [runLoopFrom_succ]
    by_cases hstop : 2 ≤ (runIteration env cfg evalSet it st).stagnantIterations
    · rw [if_pos hstop]
      exact hstep
    · rw [if_neg hstop]
      exact ih (it + 1) _ base hstep

/-- C8 amended: the report counts candidatesPerIteration generation calls
per iteration plus the FULL evaluation-set size per evaluation pass
(baseline, resume re-evaluation and one pass per evaluated candidate);
when evalSubsetSize is null this equals the number of LLM calls actually
made (for a resumed run, the checkpointed count plus the calls made after
resuming), but it over-counts the scoring calls when a proper subset is
configured, as the counterexample shows. -/
theorem C8_llm_call_accounting (env : Env) (cfg : APOConfig)
    (evalSet : List EvalLead) (cp : APOCheckpoint)
    (hsub : cfg.evalSubsetSize = none) :
    (∀ (iteration : ℕ) (st : LoopState),
      (runIteration env cfg evalSet iteration st).report.totalLLMCalls =
        st.report.totalLLMCalls + cfg.candidatesPerIteration +
          (generateCandidatePrompts (env.llmGenerate iteration)
            cfg.candidatesPerIteration).length * evalSet.length) ∧
    (runAPOState env cfg evalSet none).report.totalLLMCalls =
      (runAPOState env cfg evalSet none).llmCallsMade ∧
    (runAPOState env cfg evalSet (some cp)).report.totalLLMCalls =
      cp.report.totalLLMCalls +
        (runAPOState env cfg evalSet (some cp)).llmCallsMade := by
  refine ⟨fun iteration st => rfl, ?_, ?_⟩
  · have hinit : (freshInit env cfg evalSet).report.totalLLMCalls =
        0 + (freshInit env cfg evalSet).llmCallsMade := by
      show evalSet.length = 0 + (leadsFor evalSet cfg.evalSubsetSize).length
      rw [hsub, leadsFor_none]
      omega
    have hloop := runLoopFrom_calls env cfg evalSet hsub cfg.maxIterations 1
      (freshInit env cfg evalSet) 0 hinit
    show (runLoopFrom env cfg evalSet 1 cfg.maxIterations
        (freshInit env cfg evalSet)).report.totalLLMCalls =
      (runLoopFrom env cfg evalSet 1 cfg.maxIterations
        (freshInit env cfg evalSet)).llmCallsMade
    omega
  · have hinit : (resumeInit env cfg evalSet cp).1.report.totalLLMCalls =
        cp.report.totalLLMCalls + (resumeInit env cfg evalSet cp).1.llmCallsMade := by
      show cp.report.totalLLMCalls + evalSet.length =
        cp.report.totalLLMCalls + (leadsFor evalSet cfg.evalSubsetSize).length
      rw [hsub, leadsFor_none]
    exact runLoopFrom_calls env cfg evalSet hsub
      (cfg.maxIterations + 1 - (cp.completedIterations + 1))
      (cp.completedIterations + 1) (resumeInit env cfg evalSet cp).1
      cp.report.totalLLMCalls hinit

theorem C8_llm_call_accounting_witness :
    DEFAULT_CONFIG.evalSubsetSize = none ∧
    (runAPOState envConst DEFAULT_CONFIG [leadC4] none).report.totalLLMCalls =
      (runAPOState envConst DEFAULT_CONFIG [leadC4] none).llmCallsMade :=
  ⟨rfl,
   (C8_llm_call_accounting envConst DEFAULT_CONFIG [leadC4] default rfl).2.1⟩


/-! ### Checkpoint loading and the resume path -/

/-- C6: when the checkpoint file does not exist, and when its content is
not valid JSON, `loadCheckpoint` returns null rather than throwing, and a
run invoked with --resume proceeds exactly as a fresh run (baseline
evaluation, new beam, new report); proved for every decoder standing in
for the unchecked `as APOCheckpoint` cast. -/
theorem C6_invalid_checkpoint_falls_back
    (decode : Json → Option APOCheckpoint) (env : Env) (cfg : APOConfig)
    (evalSet : List EvalLead) (file : Option String)
    (hbad : file = none ∨ ∃ content, file = some content ∧
      jsonParse content = none) :
    loadCheckpoint file = none ∧
    runAPOWithResume decode env cfg evalSet true file =
      runAPOWithResume decode env cfg evalSet false file ∧
    runAPOWithResume decode env cfg evalSet true file =
      runAPO env cfg evalSet none := by
  have hload : loadCheckpoint file = none := by
    rcases hbad with rfl | ⟨content, rfl, hparse⟩
    · rfl
    · exact hparse
  refine ⟨hload, ?_, ?_⟩ <;>
    · show runAPO env cfg evalSet
        (if true then (loadCheckpoint file).bind decode else none) = _
      rw [if_pos rfl, hload]
      rfl

theorem C6_invalid_checkpoint_falls_back_witness :
    loadCheckpoint (some "\x7bnot valid json") = none ∧
    runAPOWithResume (fun _ => none) envConst DEFAULT_CONFIG [leadC4] true
      (some "\x7bnot valid json") =
      runAPO envConst DEFAULT_CONFIG [leadC4] none :=
  ⟨(C6_invalid_checkpoint_falls_back (fun _ => none) envConst DEFAULT_CONFIG
      [leadC4] (some "\x7bnot valid json")
      (Or.inr ⟨"\x7bnot valid json", rfl, rfl⟩)).1,
   (C6_invalid_checkpoint_falls_back (fun _ => none) envConst DEFAULT_CONFIG
      [leadC4] (some "\x7bnot valid json")
      (Or.inr ⟨"\x7bnot valid json", rfl, rfl⟩)).2.2⟩


end APO
